import Mathlib

/-!
Shallow embedding of the Game Boy emulator core (src/mmu.rs, src/cpu.rs).

Conventions:
* u8 / u16 values are `Nat`; casts are `% 0x100` / `% 0x10000`; Rust `wrapping_add` /
  `wrapping_sub` are modelled with explicit modulus.
* Plain (non-`wrapping_*`) `u16` arithmetic in Rust is checked: overflow or underflow
  is an arithmetic error, not a wrap.  Operations whose address or SP arithmetic can
  overflow therefore return `Option`.
* Arrays (`[u8; n]`) are modelled as total maps `Nat → Nat`; the source indexes them
  only through the masks visible below.
* The modules ppu.rs, timer.rs, dma.rs and cartridge.rs are not among the given
  sources; each is modelled as an address-indexed byte store (reads return the stored
  byte, writes update it), which is all the claims need.  The PPU's write interface
  receives only (address, value) and has no access to the MMU, exactly as in the
  declarations used by mmu.rs.
-/

namespace GB

/-- Modelled from the spec: ppu.rs is not under src/.  The PPU owns VRAM
(0x8000..0x9FFF), OAM (0xFE00..0xFE9F) and the LCD registers; `read_byte` /
`write_byte` take only an address and a value, so the PPU cannot reach the
rest of the bus. -/
structure Ppu where
  store : Nat → Nat

def Ppu.new : Ppu := ⟨fun _ => 0⟩

def Ppu.read_byte (p : Ppu) (address : Nat) : Nat := p.store address

def Ppu.write_byte (p : Ppu) (address value : Nat) : Ppu :=
  ⟨fun i => if i = address then value else p.store i⟩

/-- Modelled from the spec: timer.rs is not under src/; byte store for FF04..FF07. -/
structure Timer where
  store : Nat → Nat

def Timer.new : Timer := ⟨fun _ => 0⟩

def Timer.read_byte (t : Timer) (address : Nat) : Nat := t.store address

def Timer.write_byte (t : Timer) (address value : Nat) : Timer :=
  ⟨fun i => if i = address then value else t.store i⟩

/-- Modelled from the spec: dma.rs is not under src/; byte store for the HDMA
registers FF51..FF55. -/
structure Dma where
  store : Nat → Nat

def Dma.new : Dma := ⟨fun _ => 0⟩

def Dma.read_byte (d : Dma) (address : Nat) : Nat := d.store address

def Dma.write_byte (d : Dma) (address value : Nat) : Dma :=
  ⟨fun i => if i = address then value else d.store i⟩

/-- Modelled from the spec: cartridge.rs is not under src/.  A cartridge exposes
`read_byte` and `write_byte`; the MBC detail is irrelevant to the claims, so it
is a byte store. -/
structure Cartridge where
  store : Nat → Nat

def Cartridge.read_byte (c : Cartridge) (address : Nat) : Nat := c.store address

def Cartridge.write_byte (c : Cartridge) (address value : Nat) : Cartridge :=
  ⟨fun i => if i = address then value else c.store i⟩

inductive Speed where
  | FAST | SLOW
deriving DecidableEq

/-- The MMU state, field for field from `struct Mmu` in src/mmu.rs. -/
structure Mmu where
  zram : Nat → Nat
  wram : Nat → Nat
  wram_bank : Nat
  switch_speed : Bool
  speed : Speed
  interrupt_enable : Nat
  interrupt_flag : Nat
  ppu : Ppu
  cartridge : Option Cartridge
  dma : Dma
  timer : Timer

/-- `Mmu::new` from src/mmu.rs. -/
def Mmu.new : Mmu where
  cartridge := none
  wram := fun _ => 0
  wram_bank := 1
  zram := fun _ => 0
  speed := Speed.SLOW
  switch_speed := false
  interrupt_flag := 0
  interrupt_enable := 0
  ppu := Ppu.new
  dma := Dma.new
  timer := Timer.new

/-- `Mmu::read_byte` from src/mmu.rs, arm for arm in source order (Rust `match`
takes the first matching arm, hence the ordered if-chain; the 0xFF4D arm is kept
even though 0xFF40..=0xFF4F precedes it). -/
def Mmu.read_byte (m : Mmu) (address : Nat) : Nat :=
  if address ≤ 0x7FFF then
    match m.cartridge with
    | some c => c.read_byte address
    | none => 0
  else if 0x8000 ≤ address ∧ address ≤ 0x9FFF then m.ppu.read_byte address
  else if 0xA000 ≤ address ∧ address ≤ 0xBFFF then 0
  else if (0xC000 ≤ address ∧ address ≤ 0xCFFF) ∨ (0xE000 ≤ address ∧ address ≤ 0xEFFF) then
    m.wram (address &&& 0x0FFF)
  else if (0xD000 ≤ address ∧ address ≤ 0xDFFF) ∨ (0xF000 ≤ address ∧ address ≤ 0xFDFF) then
    m.wram ((m.wram_bank * 0x1000) ||| (address &&& 0x0FFF))
  else if 0xFE00 ≤ address ∧ address ≤ 0xFE9F then m.ppu.read_byte address
  else if address = 0xFF00 then 0
  else if 0xFF01 ≤ address ∧ address ≤ 0xFF02 then 0
  else if 0xFF04 ≤ address ∧ address ≤ 0xFF07 then m.timer.read_byte address
  else if address = 0xFF0F then m.interrupt_flag
  else if 0xFF10 ≤ address ∧ address ≤ 0xFF3F then 0
  else if 0xFF40 ≤ address ∧ address ≤ 0xFF4F then m.ppu.read_byte address
  else if address = 0xFF4D then
    (if m.speed = Speed.FAST then 0x80 else 0) ||| (if m.switch_speed then 1 else 0)
  else if 0xFF51 ≤ address ∧ address ≤ 0xFF55 then m.dma.read_byte address
  else if 0xFF68 ≤ address ∧ address ≤ 0xFF6B then m.ppu.read_byte address
  else if address = 0xFF70 then m.wram_bank % 0x100
  else if 0xFF80 ≤ address ∧ address ≤ 0xFFFE then m.zram (address &&& 0x007F)
  else if address = 0xFFFF then m.interrupt_enable
  else 0

/-- Modelled from the spec: `execute_odma` lives in dma.rs, which is not among
the given sources.  Per the spec, writing X to 0xFF46 copies the 160 bytes at
X<<8 .. X<<8+0x9F to OAM 0xFE00 .. 0xFE9F.  OAM writes land in the PPU (the
0xFE00..=0xFE9F arm of `write_byte` routes there), so the copy updates the PPU
store directly. -/
def execute_odma (m : Mmu) (value : Nat) : Mmu :=
  (List.range 160).foldl
    (fun acc i =>
      { acc with ppu := acc.ppu.write_byte (0xFE00 + i) (acc.read_byte ((value <<< 8) + i)) })
    m

/-- `Mmu::write_byte` from src/mmu.rs, arm for arm in source order.  Note that in
the source the arms `0xFF46 => execute_odma(..)` and `0xFF4D => ..` come after
the arm `0xFF40 ..= 0xFF4F => ppu.write_byte(..)`, and that `0xFF0F` comes after
`0xFF68 ..= 0xFF6B`. -/
def Mmu.write_byte (m : Mmu) (address value : Nat) : Mmu :=
  if address ≤ 0x7FFF then
    match m.cartridge with
    | some c => { m with cartridge := some (c.write_byte address value) }
    | none => m
  else if 0x8000 ≤ address ∧ address ≤ 0x9FFF then { m with ppu := m.ppu.write_byte address value }
  else if 0xA000 ≤ address ∧ address ≤ 0xBFFF then m
  else if (0xC000 ≤ address ∧ address ≤ 0xCFFF) ∨ (0xE000 ≤ address ∧ address ≤ 0xEFFF) then
    { m with wram := fun i => if i = (address &&& 0x0FFF) then value else m.wram i }
  else if (0xD000 ≤ address ∧ address ≤ 0xDFFF) ∨ (0xF000 ≤ address ∧ address ≤ 0xFDFF) then
    { m with wram := fun i =>
        if i = ((m.wram_bank * 0x1000) ||| (address &&& 0x0FFF)) then value else m.wram i }
  else if 0xFE00 ≤ address ∧ address ≤ 0xFE9F then { m with ppu := m.ppu.write_byte address value }
  else if address = 0xFF00 then m
  else if 0xFF01 ≤ address ∧ address ≤ 0xFF02 then m
  else if 0xFF04 ≤ address ∧ address ≤ 0xFF07 then { m with timer := m.timer.write_byte address value }
  else if 0xFF10 ≤ address ∧ address ≤ 0xFF3F then m
  else if 0xFF40 ≤ address ∧ address ≤ 0xFF4F then { m with ppu := m.ppu.write_byte address value }
  else if address = 0xFF46 then execute_odma m value
  else if address = 0xFF4D then
    if value &&& 0x1 = 0x1 then { m with switch_speed := true } else m
  else if 0xFF51 ≤ address ∧ address ≤ 0xFF55 then { m with dma := m.dma.write_byte address value }
  else if 0xFF68 ≤ address ∧ address ≤ 0xFF6B then { m with ppu := m.ppu.write_byte address value }
  else if address = 0xFF0F then { m with interrupt_flag := value }
  else if address = 0xFF70 then
    { m with wram_bank := match value &&& 0x7 with | 0 => 1 | n => n }
  else if 0xFF80 ≤ address ∧ address ≤ 0xFFFE then
    { m with zram := fun i => if i = (address &&& 0x007F) then value else m.zram i }
  else if address = 0xFFFF then { m with interrupt_enable := value }
  else m

/-- `Mmu::read_word` from src/mmu.rs: `read_byte(address)` is the low byte and
`read_byte(address + 1)` the high byte; `address + 1` is plain u16 addition, so
the access is defined only when it does not overflow. -/
def Mmu.read_word (m : Mmu) (address : Nat) : Option Nat :=
  if address + 1 ≤ 0xFFFF then
    some (((m.read_byte (address + 1)) <<< 8) ||| m.read_byte address)
  else none

/-- `Mmu::write_word` from src/mmu.rs: low byte at `address`, high byte at
`address + 1` (checked u16 addition). -/
def Mmu.write_word (m : Mmu) (address value : Nat) : Option Mmu :=
  if address + 1 ≤ 0xFFFF then
    some ((m.write_byte address (value &&& 0xFF)).write_byte (address + 1) ((value >>> 8) % 0x100))
  else none

/-- The CPU register file, field for field from `struct Cpu` in src/cpu.rs. -/
structure Cpu where
  a : Nat
  b : Nat
  c : Nat
  d : Nat
  e : Nat
  f : Nat
  h : Nat
  l : Nat
  sp : Nat
  pc : Nat
  halted : Bool
  interrupt_enable : Bool
  ime : Bool
  cycles : Nat

/-- `Cpu::new` from src/cpu.rs. -/
def Cpu.new : Cpu where
  a := 0
  b := 0
  c := 0
  d := 0
  e := 0
  f := 0
  h := 0
  l := 0
  sp := 0
  pc := 0
  halted := false
  interrupt_enable := true
  ime := false
  cycles := 0

/-- `Cpu::get_af`. -/
def Cpu.get_af (c : Cpu) : Nat := (c.a <<< 8) ||| c.f

/-- `Cpu::set_af`: `a = (value & 0xFF00) >> 8; f = value & 0xFF` (no mask of the
low nibble of F in the source). -/
def Cpu.set_af (c : Cpu) (value : Nat) : Cpu :=
  { c with a := (value &&& 0xFF00) >>> 8, f := value &&& 0xFF }

/-- `Cpu::set_f_carry`: bit 4 of F. -/
def Cpu.set_f_carry (c : Cpu) (value : Bool) : Cpu :=
  if value then { c with f := c.f ||| 0x10 } else { c with f := c.f &&& 0xEF }

/-- `Cpu::set_f_negative`: bit 6 of F. -/
def Cpu.set_f_negative (c : Cpu) (value : Bool) : Cpu :=
  if value then { c with f := c.f ||| 0x40 } else { c with f := c.f &&& 0xBF }

/-- `Cpu::set_f_half_carry`: bit 5 of F. -/
def Cpu.set_f_half_carry (c : Cpu) (value : Bool) : Cpu :=
  if value then { c with f := c.f ||| 0x20 } else { c with f := c.f &&& 0xDF }

/-- `Cpu::set_f_zero`: bit 7 of F. -/
def Cpu.set_f_zero (c : Cpu) (value : Bool) : Cpu :=
  if value then { c with f := c.f ||| 0x80 } else { c with f := c.f &&& 0x7F }

/-- `Cpu::get_f_carry`. -/
def Cpu.get_f_carry (c : Cpu) : Bool := decide (0 < c.f &&& 0x10)

/-- `Cpu::get_f_substract`. -/
def Cpu.get_f_substract (c : Cpu) : Bool := decide (0 < c.f &&& 0x40)

/-- `Cpu::get_f_half_carry`. -/
def Cpu.get_f_half_carry (c : Cpu) : Bool := decide (0 < c.f &&& 0x20)

/-- `Cpu::get_f_zero`. -/
def Cpu.get_f_zero (c : Cpu) : Bool := decide (0 < c.f &&& 0x80)

/-- `Cpu::apply_inc8_with_flags`: result plus updated CPU. -/
def Cpu.apply_inc8_with_flags (c : Cpu) (arg : Nat) : Nat × Cpu :=
  let value := (arg + 1) % 0x100
  let c1 := c.set_f_zero (value == 0)
  let c2 := c1.set_f_half_carry (decide ((arg &&& 0x0F) + 1 > 0x0F))
  let c3 := c2.set_f_negative false
  (value, c3)

/-- `Cpu::apply_dec8_with_flags`: `value = arg.wrapping_sub(1)`; Z from result,
H from `(arg & 0x0F) == 0x0F`, N set; the carry flag is not touched. -/
def Cpu.apply_dec8_with_flags (c : Cpu) (arg : Nat) : Nat × Cpu :=
  let value := (arg + 0x100 - 1) % 0x100
  let c1 := c.set_f_zero (value == 0)
  let c2 := c1.set_f_half_carry ((arg &&& 0x0F) == 0x0F)
  let c3 := c2.set_f_negative true
  (value, c3)

/-- `Cpu::apply_rotate_left_with_flags`: note the source computes the result
from `self.a << 1` (register A), not from `arg`, and feeds `carry` (the rotated-in
bit) to `set_f_carry`. -/
def Cpu.apply_rotate_left_with_flags (c : Cpu) (arg : Nat) (apply_with_carry : Bool) :
    Nat × Cpu :=
  let carry : Nat :=
    if apply_with_carry then (if c.get_f_carry then 1 else 0)
    else (if (arg &&& 0x80) != 0 then 1 else 0)
  let result : Nat := ((c.a <<< 1) % 0x100) ||| carry
  let c1 := c.set_f_half_carry false
  let c2 := c1.set_f_negative false
  let c3 := c2.set_f_zero (result == 0)
  let c4 := c3.set_f_carry (decide (carry > 0))
  (result, c4)

/-- `Cpu::apply_rotate_right_with_flags`. -/
def Cpu.apply_rotate_right_with_flags (c : Cpu) (arg : Nat) (apply_with_carry : Bool) :
    Nat × Cpu :=
  let carry : Nat :=
    if apply_with_carry then (if c.get_f_carry then 1 else 0)
    else arg &&& 0x01
  let result : Nat := (arg >>> 1) ||| (if 0 < arg &&& 0x01 then 0x80 else 0)
  let c1 := c.set_f_half_carry false
  let c2 := c1.set_f_negative false
  let c3 := c2.set_f_zero (result == 0)
  let c4 := c3.set_f_carry (decide (carry > 0))
  (result, c4)

/-- `Cpu::push_byte`: `self.sp -= 1` is checked u16 subtraction, then the byte is
written at the new SP. -/
def Cpu.push_byte (c : Cpu) (m : Mmu) (value : Nat) : Option (Cpu × Mmu) :=
  if 1 ≤ c.sp then
    some ({ c with sp := c.sp - 1 }, m.write_byte (c.sp - 1) value)
  else none

/-- `Cpu::push_word`: `self.sp -= 2` (checked), then `write_word` at the new SP. -/
def Cpu.push_word (c : Cpu) (m : Mmu) (value : Nat) : Option (Cpu × Mmu) :=
  if 2 ≤ c.sp then
    match m.write_word (c.sp - 2) value with
    | some m1 => some ({ c with sp := c.sp - 2 }, m1)
    | none => none
  else none

/-- `Cpu::pop_byte`: reads at SP, then `self.sp -= 1` (checked subtraction — the
source subtracts, it does not add). -/
def Cpu.pop_byte (c : Cpu) (m : Mmu) : Option (Nat × Cpu) :=
  if 1 ≤ c.sp then some (m.read_byte c.sp, { c with sp := c.sp - 1 }) else none

/-- `Cpu::pop_word`: `read_word` at SP, then `self.sp -= 2` (checked subtraction —
the source subtracts, it does not add). -/
def Cpu.pop_word (c : Cpu) (m : Mmu) : Option (Nat × Cpu) :=
  match m.read_word c.sp with
  | some value => if 2 ≤ c.sp then some (value, { c with sp := c.sp - 2 }) else none
  | none => none

example : Mmu.new.read_byte 0xFF70 = 1 := rfl
example : (Mmu.new.write_byte 0xFF70 0x18).wram_bank = 1 := rfl
example : (Mmu.new.write_byte 0xFF70 0x0B).wram_bank = 3 := rfl
example : (Mmu.new.write_byte 0xC123 0x55).read_byte 0xE123 = 0x55 := rfl

/-! Concrete states used by the evaluation theorems below. -/

/-- An MMU whose WRAM bytes all hold 0xAB and whose OAM (PPU store) is zero. -/
def mmuWramAB : Mmu := { Mmu.new with wram := fun _ => 0xAB }

/-- A cartridge whose every byte (in particular external RAM at 0xA000) is 5. -/
def cartFive : Cartridge := ⟨fun _ => 5⟩

/-- An MMU with `cartFive` inserted. -/
def mmuCart : Mmu := { Mmu.new with cartridge := some cartFive }

/-- A CPU whose SP points into WRAM (0xD000). -/
def cpuSpD000 : Cpu := { Cpu.new with sp := 0xD000 }

/-- A CPU with SP = 0. -/
def cpuSp0 : Cpu := { Cpu.new with sp := 0 }

/-- A CPU with A = 0x40 and all flags clear. -/
def cpuA40 : Cpu := { Cpu.new with a := 0x40 }

/-- A CPU with the carry flag set (F = 0x10). -/
def cpuCarry : Cpu := { Cpu.new with f := 0x10 }

/-- C1: writing X to 0xFF46 does NOT trigger the OAM DMA copy.  In
`Mmu::write_byte` the arm `0xFF40 ..= 0xFF4F` precedes the arm `0xFF46 =>
execute_odma(..)`, and Rust `match` takes the first matching arm, so the write
is routed to `ppu.write_byte` and `execute_odma` is unreachable.  Concretely:
with every WRAM byte 0xAB and OAM zero, after writing 0xC0 to 0xFF46 the OAM
byte at 0xFE00 is still 0 (the claim requires it to become the source byte
0xAB read at 0xC000); the written value merely lands in the PPU register
store at 0xFF46. -/
theorem writeFF46_does_not_copy_oam :
    (mmuWramAB.write_byte 0xFF46 0xC0).read_byte 0xFE00 = 0
    ∧ mmuWramAB.read_byte 0xC000 = 0xAB
    ∧ mmuWramAB.read_byte 0xFE00 = 0
    ∧ (mmuWramAB.write_byte 0xFF46 0xC0).read_byte 0xFF46 = 0xC0 :=
  ⟨rfl, rfl, rfl, rfl⟩

/-- C2: PUSH then POP returns the pushed word but does not restore SP.
`Cpu::pop_word` ends with `self.sp -= 2` (it subtracts instead of adding), so
from SP = 0xD000, after `push_word(0x1234)` (SP becomes 0xCFFE) a `pop_word`
yields the value 0x1234 but leaves SP = 0xCFFC, not the original 0xD000. -/
theorem push_pop_word_sp_not_restored :
    ((cpuSpD000.push_word Mmu.new 0x1234).bind fun cm =>
        (cm.1.pop_word cm.2).map fun vc => (vc.1, vc.2.sp))
      = some (0x1234, 0xCFFC) := rfl

/-- C3: `Cpu::set_af` stores the full low byte of the written value into F; the
low nibble is not masked.  After `set_af(0x00FF)` we get F = 0xFF (the claim
requires 0xF0), and after `set_af(0xABCD)` F = 0xCD (the claim requires 0xC0),
so F & 0x0F = 0 is violated. -/
theorem set_af_does_not_mask_low_nibble :
    (Cpu.new.set_af 0x00FF).f = 0xFF
    ∧ (Cpu.new.set_af 0xABCD).f = 0xCD
    ∧ (Cpu.new.set_af 0xABCD).a = 0xAB
    ∧ (Cpu.new.set_af 0x00FF).f &&& 0x0F = 0x0F :=
  ⟨rfl, rfl, rfl, rfl⟩

/-- C4: `Cpu::apply_rotate_left_with_flags` computes the result from register A
(`self.a << 1`), not from `arg`, and passes the rotated-in bit to `set_f_carry`.
With A = 0 and carry clear, rotating arg = 0x01 yields 0 (the claim requires
0x02); with A = 0x40 the same arg yields 0x80, so the result depends on A; and
with the carry flag set and `with_carry = true`, rotating arg = 0x00 sets the
carry flag (the claim requires C = bit 7 of arg = 0). -/
theorem rotate_left_uses_a_and_wrong_carry :
    (Cpu.new.apply_rotate_left_with_flags 0x01 false).1 = 0
    ∧ (cpuA40.apply_rotate_left_with_flags 0x01 false).1 = 0x80
    ∧ (cpuCarry.apply_rotate_left_with_flags 0x00 true).2.get_f_carry = true :=
  ⟨rfl, rfl, rfl⟩

/-- C5: `Cpu::apply_dec8_with_flags` sets the half-carry flag from
`(arg & 0x0F) == 0x0F`, not from `(arg & 0x0F) == 0`.  At arg = 0x00 the result
is 0xFF with Z = 0 and N = 1 and C untouched as claimed, but H = 0 where the
claim (and the spec boundary test) requires H = 1. -/
theorem dec8_half_carry_condition_wrong :
    (Cpu.new.apply_dec8_with_flags 0x00).1 = 0xFF
    ∧ (Cpu.new.apply_dec8_with_flags 0x00).2.get_f_zero = false
    ∧ (Cpu.new.apply_dec8_with_flags 0x00).2.get_f_substract = true
    ∧ (Cpu.new.apply_dec8_with_flags 0x00).2.get_f_half_carry = false
    ∧ (Cpu.new.apply_dec8_with_flags 0x00).2.get_f_carry = Cpu.new.get_f_carry
    ∧ (Cpu.new.apply_dec8_with_flags 0x0F).2.get_f_half_carry = true :=
  ⟨rfl, rfl, rfl, rfl, rfl, rfl⟩

/-- C7: the stack operations are not total: `self.sp -= 1` / `self.sp -= 2` is
plain (checked) u16 subtraction, so at SP = 0 every push/pop fails on underflow
instead of wrapping modulo 2^16 (SP never becomes 0xFFFF here). -/
theorem stack_ops_fail_at_sp_zero :
    cpuSp0.push_byte Mmu.new 0x42 = none
    ∧ cpuSp0.push_word Mmu.new 0x1234 = none
    ∧ cpuSp0.pop_byte Mmu.new = none
    ∧ cpuSp0.pop_word Mmu.new = none :=
  ⟨rfl, rfl, rfl, rfl⟩

/-- C6 counterexample: with a cartridge present whose external-RAM byte at
0xA000 is 5, `Mmu::read_byte(0xA000)` still returns 0 (the `0xA000 ..= 0xBFFF`
arm is the constant 0), and `Mmu::write_byte(0xA000, 0x77)` leaves the MMU —
cartridge included — unchanged (the arm is an empty block). -/
theorem ext_ram_counterexample :
    mmuCart.read_byte 0xA000 = 0
    ∧ cartFive.read_byte 0xA000 = 5
    ∧ mmuCart.cartridge = some cartFive
    ∧ mmuCart.write_byte 0xA000 0x77 = mmuCart :=
  ⟨rfl, rfl, rfl, rfl⟩

/-- C6 (amended): for every address in 0xA000 ..= 0xBFFF, `Mmu::read_byte`
returns the constant 0 regardless of the cartridge, and `Mmu::write_byte`
returns the MMU unchanged (the write is dropped, not forwarded to the
cartridge). -/
theorem ext_ram_stubbed (m : Mmu) (address v : Nat)
    (h1 : 0xA000 ≤ address) (h2 : address ≤ 0xBFFF) :
    m.read_byte address = 0 ∧ m.write_byte address v = m := by
  constructor
  · unfold Mmu.read_byte
    rw [if_neg (by omega), if_neg (by omega), if_pos (by omega)]
  · unfold Mmu.write_byte
    rw [if_neg (by omega), if_neg (by omega), if_pos (by omega)]

/-- Witness for `ext_ram_stubbed` at address 0xA123. -/
theorem ext_ram_stubbed_witness :
    Mmu.new.read_byte 0xA123 = 0 ∧ Mmu.new.write_byte 0xA123 9 = Mmu.new :=
  ext_ram_stubbed Mmu.new 0xA123 9 (by decide) (by decide)

/-- C10: `Mmu::read_word` and `Mmu::write_word` access `address` and
`address + 1` with plain u16 addition: both are defined for every address up to
0xFFFE, and at address = 0xFFFF the increment overflows u16, so the word access
is not defined (it does not wrap to 0x0000). -/
theorem word_access_total_iff_below_ffff :
    (∀ (m : Mmu) (address v : Nat), address ≤ 0xFFFE →
        (m.read_word address).isSome ∧ (m.write_word address v).isSome)
    ∧ (∀ (m : Mmu) (v : Nat), m.read_word 0xFFFF = none ∧ m.write_word 0xFFFF v = none) := by
  constructor
  · intro m address v hle
    unfold Mmu.read_word Mmu.write_word
    rw [if_pos (by omega), if_pos (by omega)]
    exact ⟨rfl, rfl⟩
  · intro m v
    unfold Mmu.read_word Mmu.write_word
    rw [if_neg (by omega), if_neg (by omega)]
    exact ⟨rfl, rfl⟩

/-- Witness for `word_access_total_iff_below_ffff` at address 0x1234. -/
theorem word_access_total_iff_below_ffff_witness :
    (Mmu.new.read_word 0x1234).isSome ∧ Mmu.new.read_word 0xFFFF = none :=
  ⟨(word_access_total_iff_below_ffff.1 Mmu.new 0x1234 0 (by decide)).1,
   (word_access_total_iff_below_ffff.2 Mmu.new 0).1⟩

/-! Helper lemmas. -/

lemma land_fff_eq_mod (x : Nat) : x &&& 0x0FFF = x % 0x1000 := by
  have hx := Nat.and_pow_two_sub_one_eq_mod x 12
  norm_num at hx
  exact hx

lemma read_byte_wram_fixed (m : Mmu) (address : Nat)
    (h : (0xC000 ≤ address ∧ address ≤ 0xCFFF) ∨ (0xE000 ≤ address ∧ address ≤ 0xEFFF)) :
    m.read_byte address = m.wram (address &&& 0x0FFF) := by
  unfold Mmu.read_byte
  rw [if_neg (by omega), if_neg (by omega), if_neg (by omega), if_pos h]

lemma read_byte_wram_banked (m : Mmu) (address : Nat)
    (h : (0xD000 ≤ address ∧ address ≤ 0xDFFF) ∨ (0xF000 ≤ address ∧ address ≤ 0xFDFF)) :
    m.read_byte address = m.wram ((m.wram_bank * 0x1000) ||| (address &&& 0x0FFF)) := by
  unfold Mmu.read_byte
  rw [if_neg (by omega), if_neg (by omega), if_neg (by omega), if_neg (by omega), if_pos h]

/-- C9: the echo region 0xE000 ..= 0xFDFF reads the same WRAM cell as the
address 0x2000 lower: 0xE000..0xEFFF mirrors 0xC000..0xCFFF (fixed bank 0) and
0xF000..0xFDFF mirrors 0xD000..0xDDFF (current `wram_bank`), for every MMU
state. -/
theorem echo_ram_mirrors_wram (m : Mmu) (address : Nat)
    (h1 : 0xE000 ≤ address) (h2 : address ≤ 0xFDFF) :
    m.read_byte address = m.read_byte (address - 0x2000) := by
  have hmask : address &&& 0x0FFF = (address - 0x2000) &&& 0x0FFF := by
    rw [land_fff_eq_mod, land_fff_eq_mod]
    omega
  rcases le_or_lt address 0xEFFF with hc | hc
  · rw [read_byte_wram_fixed m address (Or.inr ⟨h1, hc⟩),
      read_byte_wram_fixed m (address - 0x2000) (Or.inl (by omega)), hmask]
  · rw [read_byte_wram_banked m address (Or.inr ⟨by omega, h2⟩),
      read_byte_wram_banked m (address - 0x2000) (Or.inl (by omega)), hmask]

/-- Witness for `echo_ram_mirrors_wram`: the banked echo address 0xF234 reads
the cell of 0xD234. -/
theorem echo_ram_mirrors_wram_witness :
    Mmu.new.read_byte 0xF234 = Mmu.new.read_byte (0xF234 - 0x2000) :=
  echo_ram_mirrors_wram Mmu.new 0xF234 (by decide) (by decide)

lemma execute_odma_wram_bank (m : Mmu) (value : Nat) :
    (execute_odma m value).wram_bank = m.wram_bank := by
  unfold execute_odma
  generalize List.range 160 = l
  induction l generalizing m with
  | nil => rfl
  | cons i t ih => exact ih _

attribute [irreducible] execute_odma

lemma write_byte_wram_bank (m : Mmu) (address value : Nat) :
    (m.write_byte address value).wram_bank = m.wram_bank
    ∨ (m.write_byte address value).wram_bank
        = match value &&& 0x7 with | 0 => 1 | n => n := by
  unfold Mmu.write_byte
  by_cases h1 : address ≤ 0x7FFF
  · rw [if_pos h1]; cases m.cartridge <;> exact Or.inl rfl
  rw [if_neg h1]
  by_cases h2 : 0x8000 ≤ address ∧ address ≤ 0x9FFF
  · rw [if_pos h2]; exact Or.inl rfl
  rw [if_neg h2]
  by_cases h3 : 0xA000 ≤ address ∧ address ≤ 0xBFFF
  · rw [if_pos h3]; exact Or.inl rfl
  rw [if_neg h3]
  by_cases h4 : (0xC000 ≤ address ∧ address ≤ 0xCFFF) ∨ (0xE000 ≤ address ∧ address ≤ 0xEFFF)
  · rw [if_pos h4]; exact Or.inl rfl
  rw [if_neg h4]
  by_cases h5 : (0xD000 ≤ address ∧ address ≤ 0xDFFF) ∨ (0xF000 ≤ address ∧ address ≤ 0xFDFF)
  · rw [if_pos h5]; exact Or.inl rfl
  rw [if_neg h5]
  by_cases h6 : 0xFE00 ≤ address ∧ address ≤ 0xFE9F
  · rw [if_pos h6]; exact Or.inl rfl
  rw [if_neg h6]
  by_cases h7 : address = 0xFF00
  · rw [if_pos h7]; exact Or.inl rfl
  rw [if_neg h7]
  by_cases h8 : 0xFF01 ≤ address ∧ address ≤ 0xFF02
  · rw [if_pos h8]; exact Or.inl rfl
  rw [if_neg h8]
  by_cases h9 : 0xFF04 ≤ address ∧ address ≤ 0xFF07
  · rw [if_pos h9]; exact Or.inl rfl
  rw [if_neg h9]
  by_cases h10 : 0xFF10 ≤ address ∧ address ≤ 0xFF3F
  · rw [if_pos h10]; exact Or.inl rfl
  rw [if_neg h10]
  by_cases h11 : 0xFF40 ≤ address ∧ address ≤ 0xFF4F
  · rw [if_pos h11]; exact Or.inl rfl
  rw [if_neg h11]
  by_cases h12 : address = 0xFF46
  · rw [if_pos h12]; exact Or.inl (execute_odma_wram_bank m value)
  rw [if_neg h12]
  by_cases h13 : address = 0xFF4D
  · rw [if_pos h13]
    by_cases h13b : value &&& 0x1 = 0x1
    · rw [if_pos h13b]; exact Or.inl rfl
    · rw [if_neg h13b]; exact Or.inl rfl
  rw [if_neg h13]
  by_cases h14 : 0xFF51 ≤ address ∧ address ≤ 0xFF55
  · rw [if_pos h14]; exact Or.inl rfl
  rw [if_neg h14]
  by_cases h15 : 0xFF68 ≤ address ∧ address ≤ 0xFF6B
  · rw [if_pos h15]; exact Or.inl rfl
  rw [if_neg h15]
  by_cases h16 : address = 0xFF0F
  · rw [if_pos h16]; exact Or.inl rfl
  rw [if_neg h16]
  by_cases h17 : address = 0xFF70
  · rw [if_pos h17]; exact Or.inr rfl
  rw [if_neg h17]
  by_cases h18 : 0xFF80 ≤ address ∧ address ≤ 0xFFFE
  · rw [if_pos h18]; exact Or.inl rfl
  rw [if_neg h18]
  by_cases h19 : address = 0xFFFF
  · rw [if_pos h19]; exact Or.inl rfl
  rw [if_neg h19]
  exact Or.inl rfl

/-- Reachable MMU states: `Mmu::new` and everything the mutating operations of
mmu.rs produce from it.  Only `write_byte` ever assigns `wram_bank`; the
`device` constructor abstracts the remaining mutators (`execute_ticks`,
`toggle_speed`, `load_cartridge`, interrupt gathering), which may change the
peripherals, speed, interrupt and cartridge state but keep `wram`, `wram_bank`
and `zram` (and `reset` is a sequence of `write_byte` calls). -/
inductive Reachable : Mmu → Prop where
  | base : Reachable Mmu.new
  | write (m : Mmu) (address value : Nat) :
      Reachable m → Reachable (m.write_byte address value)
  | device (m m2 : Mmu) : Reachable m → m2.wram = m.wram →
      m2.wram_bank = m.wram_bank → m2.zram = m.zram → Reachable m2

lemma reachable_bank_bounds (m : Mmu) (hm : Reachable m) :
    1 ≤ m.wram_bank ∧ m.wram_bank ≤ 7 := by
  induction hm with
  | base => exact ⟨by decide, by decide⟩
  | write m address value hr ih =>
    rcases write_byte_wram_bank m address value with h | h
    · rw [h]; exact ih
    · rw [h]
      have hle : value &&& 0x7 ≤ 7 := Nat.and_le_right
      cases hv : value &&& 0x7 with
      | zero => exact ⟨show 1 ≤ 1 by omega, show (1 : Nat) ≤ 7 by omega⟩
      | succ n =>
        rw [hv] at hle
        exact ⟨show 1 ≤ n + 1 from Nat.succ_le_succ (Nat.zero_le n),
          show n + 1 ≤ 7 from hle⟩
  | device m m2 hr hw hb hz ih => rw [hb]; exact ih

lemma write_ff70_bank (m : Mmu) (v : Nat) :
    (m.write_byte 0xFF70 v).wram_bank = match v &&& 0x7 with | 0 => 1 | n => n := rfl

/-- C8: writing v to 0xFF70 sets `wram_bank` to `v & 0x7` if that is nonzero and
to 1 otherwise; the initial bank is 1; in every reachable MMU state the bank is
in {1,...,7} (never 0); and reading 0xFF70 returns `wram_bank`. -/
theorem wram_bank_select_spec :
    (∀ (m : Mmu) (v : Nat),
        (m.write_byte 0xFF70 v).wram_bank = if v &&& 0x7 = 0 then 1 else v &&& 0x7)
    ∧ Mmu.new.wram_bank = 1
    ∧ (∀ m : Mmu, Reachable m → 1 ≤ m.wram_bank ∧ m.wram_bank ≤ 7)
    ∧ (∀ m : Mmu, Reachable m → m.read_byte 0xFF70 = m.wram_bank) := by
  refine ⟨?_, rfl, fun m hm => reachable_bank_bounds m hm, ?_⟩
  · intro m v
    rw [write_ff70_bank]
    cases hv : v &&& 0x7 with
    | zero => simp
    | succ n => simp
  · intro m hm
    have hb := reachable_bank_bounds m hm
    have hr : m.read_byte 0xFF70 = m.wram_bank % 0x100 := rfl
    rw [hr, Nat.mod_eq_of_lt (by omega)]

/-- Witness for `wram_bank_select_spec` at the initial state and v = 0x08. -/
theorem wram_bank_select_spec_witness :
    ((Mmu.new.write_byte 0xFF70 0x08).wram_bank
        = if 0x08 &&& 0x7 = 0 then 1 else 0x08 &&& 0x7)
    ∧ (1 ≤ Mmu.new.wram_bank ∧ Mmu.new.wram_bank ≤ 7)
    ∧ Mmu.new.read_byte 0xFF70 = Mmu.new.wram_bank :=
  ⟨wram_bank_select_spec.1 Mmu.new 0x08,
   wram_bank_select_spec.2.2.1 Mmu.new Reachable.base,
   wram_bank_select_spec.2.2.2 Mmu.new Reachable.base⟩

end GB
